import Mathlib

/-!
# Verification of the binance-yonetim core against its specification

Shallow embedding of the parts of the code base that the claims under
review are about:

* `app/modules/rules_engine.py`  — the deterministic rules engine,
* `app/modules/normalizer.py`    — payload normalization,
* `app/modules/scheduler.py`     — `store_latest`, the two-layer publisher,
* `app/routers/webhook.py`       — the webhook ingress (as an action trace),
* `app/routers/admin.py`         — `POST /config`.

Modelling conventions:

* Python `float` is modelled as `ℚ` (exact rational arithmetic); IEEE
  artefacts such as the sign of `-0.0` and the literals `inf` / `nan`
  are outside the model.
* Python `int` is modelled as `ℤ`.
* Python insertion-ordered `dict`s are modelled as association lists
  (`List (String × α)`); `dict.get(k, default)` is `dictGet`.
* `await`ed store operations are modelled by explicit state passing;
  the JSON (de)serialization of stored envelopes is modelled as an
  identity round-trip, with corrupt stored blobs represented explicitly.
* Wall-clock reads (`time.time()`), fresh UUIDs and the SHA-256 prefix
  used for derived event ids are passed in as explicit parameters.
-/

namespace BY

/-! ## Python-primitive helpers -/

/-- Python `d.get(k, default)` on an insertion-ordered dict modelled as an
association list: the first binding of `k` wins. -/
def dictGet {α : Type} (d : List (String × α)) (k : String) (default : α) : α :=
  match d.find? (fun p => p.1 == k) with
  | some p => p.2
  | none => default

/-- Python `k in d` for the association-list model of a dict. -/
def hasKey {α : Type} (d : List (String × α)) (k : String) : Bool :=
  (d.find? (fun p => p.1 == k)).isSome

/-- Round half to even (the rounding used by Python's `round` and by
fixed-point string formatting), returning an integer. -/
def rhe (q : ℚ) : ℤ :=
  let f := ⌊q⌋
  let r := q - f
  if r < 1/2 then f
  else if 1/2 < r then f + 1
  else if f % 2 = 0 then f else f + 1

/-- Python `int(x)` on a real value: truncation toward zero. -/
def pyTrunc (q : ℚ) : ℤ := if 0 ≤ q then ⌊q⌋ else -⌊-q⌋

/-- Python `round(q, n)` for `n` decimal digits. -/
def pyRound (n : ℕ) (q : ℚ) : ℚ := (rhe (q * (10 : ℚ) ^ n) : ℚ) / (10 : ℚ) ^ n

/-- Decimal rendering of a natural number left-padded with zeros to `w` digits. -/
def natPad (n w : ℕ) : String :=
  String.mk (List.replicate (w - (toString n).length) '0') ++ toString n

/-- Python fixed-point formatting `f"{q:.precf}"` (`signed := false`) and
`f"{q:+.precf}"` (`signed := true`).  The sign is taken from the rounded
rational value; the IEEE negative zero (`"-0.000"`) has no counterpart
in the `ℚ` model. -/
def fmtFixed (prec : ℕ) (signed : Bool) (q : ℚ) : String :=
  let n := rhe (q * (10 : ℚ) ^ prec)
  let sign := if n < 0 then "-" else if signed then "+" else ""
  let m := n.natAbs
  if prec = 0 then sign ++ toString (m)
  else sign ++ toString (m / 10 ^ prec) ++ "." ++ natPad (m % 10 ^ prec) prec

/-- Python `str.upper()` over the ASCII range, as a structural map on
the character list (kernel-computable, unlike `String.toUpper`). -/
def pyUpper (s : String) : String := String.mk (s.data.map Char.toUpper)

/-- Python `str.lower()` over the ASCII range. -/
def pyLower (s : String) : String := String.mk (s.data.map Char.toLower)

/-! ## Data model (`app/schemas/evaluation.py`, `app/schemas/config.py`) -/

/-- Schema `IndicatorSignal` (pydantic model). -/
structure IndicatorSignal where
  indicator : String
  signal : String
  strength : ℚ
  ts : ℤ
deriving DecidableEq, Repr

/-- Schema `TimeframeSummary` (pydantic model). -/
structure TimeframeSummary where
  tf : String
  buy_count : ℤ := 0
  sell_count : ℤ := 0
  close_count : ℤ := 0
  neutral_count : ℤ := 0
  indicators : List IndicatorSignal := []
deriving DecidableEq, Repr

/-- Schema `AggregationResult` (pydantic model); `used_events` holds raw JSON
blobs that the rules engine never inspects, modelled as strings. -/
structure AggregationResult where
  symbol : String
  timeframes : List (String × TimeframeSummary)
  used_events : List String := []
  aggregated_at : ℤ := 0
deriving DecidableEq, Repr

/-- Schema `RuntimeConfig` (pydantic model) with the embedded defaults. -/
structure RuntimeConfig where
  watchlist_symbols : List String := ["ETHUSDT", "BTCUSDT"]
  refresh_rules_seconds : ℤ := 30
  refresh_ai_seconds : ℤ := 120
  events_max_per_symbol : ℤ := 1000
  tf_windows : List (String × ℤ) := [("5m", 180), ("15m", 300), ("1h", 900), ("4h", 1800)]
  tf_weights : List (String × ℚ) := [("4h", 45/100), ("1h", 25/100), ("15m", 18/100), ("5m", 12/100)]
  indicator_weights : List (String × ℚ) := [("AdaptiveTrendFlow", 1)]
  threshold : ℚ := 1/4
deriving DecidableEq, Repr

/-- Schema `RulesOutput` (pydantic model). -/
structure RulesOutput where
  symbol : String
  decision : String
  bias : String
  confidence : ℤ
  score : ℚ
  threshold : ℚ
  reasons : List String
  veto_applied : Bool := false
  veto_reason : Option String := none
deriving DecidableEq, Repr

/-! ## Rules engine (`app/modules/rules_engine.py`) -/

/-- The direction lookup `_DIRECTION.get(s, 0.0)`. -/
def direction (s : String) : ℚ :=
  dictGet [("BUY", (1 : ℚ)), ("SELL", -1), ("CLOSE", 0), ("NEUTRAL", 0)] s 0

/-- The reason string appended for a contributing signal:
`f"{ind.indicator}@{tf}: {ind.signal} (str={ind.strength:.1f}, contrib={contribution:+.3f})"`. -/
def reasonString (tf : String) (ind : IndicatorSignal) (contribution : ℚ) : String :=
  ind.indicator ++ "@" ++ tf ++ ": " ++ ind.signal ++
    " (str=" ++ fmtFixed 1 false ind.strength ++
    ", contrib=" ++ fmtFixed 3 true contribution ++ ")"

/-- One step of the inner loop of `evaluate`: accumulate the contribution
of one indicator signal into `(score, reasons)`. -/
def tfStep (config : RuntimeConfig) (tf : String) (tf_weight : ℚ)
    (acc : ℚ × List String) (ind_sig : IndicatorSignal) : ℚ × List String :=
  let ind_weight := dictGet config.indicator_weights ind_sig.indicator 1
  let d := direction (pyUpper ind_sig.signal)
  let contribution := d * tf_weight * ind_weight * ind_sig.strength
  (acc.1 + contribution,
   if d ≠ 0 then acc.2 ++ [reasonString tf ind_sig contribution] else acc.2)

/-- The double loop of `evaluate` accumulating the score and the reasons
over `aggregation.timeframes.items()` in order. -/
def scoreReasons (aggregation : AggregationResult) (config : RuntimeConfig) :
    ℚ × List String :=
  aggregation.timeframes.foldl
    (fun acc p =>
      let tf_weight := dictGet config.tf_weights p.1 0
      p.2.indicators.foldl (tfStep config p.1 tf_weight) acc)
    (0, [])

/-- The raw (pre-rounding) score of `evaluate`. -/
def rawScore (aggregation : AggregationResult) (config : RuntimeConfig) : ℚ :=
  (scoreReasons aggregation config).1

/-- The bias if-chain of `evaluate`. -/
def biasOf (score threshold : ℚ) : String :=
  if score ≥ threshold then "LONG"
  else if score ≤ -threshold then "SHORT"
  else "NEUTRAL"

/-- The 4h directional score computed inside the veto branch of
`evaluate`; note the `config.tf_weights.get("4h", 0.5)` default. -/
def h4ScoreCode (tf_4h : TimeframeSummary) (config : RuntimeConfig) : ℚ :=
  let h4_weight := dictGet config.tf_weights "4h" (1/2)
  tf_4h.indicators.foldl
    (fun s ind_sig =>
      s + direction (pyUpper ind_sig.signal) * h4_weight *
        dictGet config.indicator_weights ind_sig.indicator 1 * ind_sig.strength)
    0

/-- The veto branch of `evaluate`: `(veto_applied, veto_reason)`. -/
def vetoOf (aggregation : AggregationResult) (config : RuntimeConfig)
    (bias : String) : Bool × Option String :=
  match aggregation.timeframes.find? (fun p => p.1 == "4h") with
  | none => (false, none)
  | some p =>
    let h4_score := h4ScoreCode p.2 config
    let h4_net_sell := p.2.buy_count < p.2.sell_count ∨ h4_score < 0
    let h4_net_buy := p.2.sell_count < p.2.buy_count ∨ 0 < h4_score
    if bias = "LONG" ∧ h4_net_sell then (true, some "4H net SELL — LONG_SETUP vetoed")
    else if bias = "SHORT" ∧ h4_net_buy then (true, some "4H net BUY — SHORT_SETUP vetoed")
    else (false, none)

/-- The decision if-chain of `evaluate`. -/
def decisionOf (veto_applied : Bool) (bias : String) : String :=
  if veto_applied then "NO_TRADE"
  else if bias = "LONG" then "LONG_SETUP"
  else if bias = "SHORT" then "SHORT_SETUP"
  else "WATCH"

/-- The confidence formula `min(100, int(abs(score) / (threshold * 2) * 100))`. -/
def confidenceOf (score threshold : ℚ) : ℤ :=
  min 100 (pyTrunc (|score| / (threshold * 2) * 100))

/-- Function `evaluate(aggregation, config)` from `app/modules/rules_engine.py`.
Returns `none` exactly when the confidence computation divides by zero
(`threshold * 2 == 0`), modelling the `ZeroDivisionError` the Python
code raises there. -/
def evaluate (aggregation : AggregationResult) (config : RuntimeConfig) :
    Option RulesOutput :=
  let sr := scoreReasons aggregation config
  let score := sr.1
  let threshold := config.threshold
  let bias := biasOf score threshold
  let vet := vetoOf aggregation config bias
  if config.threshold * 2 = 0 then none
  else
    some
      { symbol := aggregation.symbol
        decision := decisionOf vet.1 bias
        bias := bias
        confidence := confidenceOf score threshold
        score := pyRound 4 score
        threshold := threshold
        reasons := sr.2
        veto_applied := vet.1
        veto_reason := vet.2 }

/-! ## Rules-engine lemmas -/

theorem biasOf_long {s t : ℚ} (h : biasOf s t = "LONG") : s ≥ t := by
  unfold biasOf at h
  split at h
  · assumption
  · split at h <;> exact absurd h (by decide)

theorem biasOf_short {s t : ℚ} (h : biasOf s t = "SHORT") : s ≤ -t := by
  unfold biasOf at h
  split at h
  · exact absurd h (by decide)
  · split at h
    · assumption
    · exact absurd h (by decide)

theorem biasOf_neutral {s t : ℚ} (h : biasOf s t = "NEUTRAL") : |s| < t := by
  unfold biasOf at h
  split at h
  · exact absurd h (by decide)
  · split at h
    · exact absurd h (by decide)
    · rename_i h1 h2
      exact abs_lt.mpr ⟨by linarith [not_le.mp h2], by linarith [not_le.mp h1]⟩

theorem decisionOf_veto (bias : String) : decisionOf true bias = "NO_TRADE" := rfl

/-- Unpack a successful `evaluate` into its defining pieces. -/
theorem evaluate_eq_some {A : AggregationResult} {C : RuntimeConfig}
    {out : RulesOutput} (h : evaluate A C = some out) :
    C.threshold * 2 ≠ 0 ∧
    out = { symbol := A.symbol
            decision := decisionOf (vetoOf A C (biasOf (rawScore A C) C.threshold)).1
              (biasOf (rawScore A C) C.threshold)
            bias := biasOf (rawScore A C) C.threshold
            confidence := confidenceOf (rawScore A C) C.threshold
            score := pyRound 4 (rawScore A C)
            threshold := C.threshold
            reasons := (scoreReasons A C).2
            veto_applied := (vetoOf A C (biasOf (rawScore A C) C.threshold)).1
            veto_reason := (vetoOf A C (biasOf (rawScore A C) C.threshold)).2 } := by
  unfold evaluate at h
  split at h
  · exact absurd h (by simp)
  · rename_i hz
    exact ⟨hz, (Option.some.injEq _ _ ▸ h).symm⟩

/-! ## Claim C2 — bias / veto invariants of `evaluate` -/

/-- Concrete input refuting C2 as stated: one BUY signal whose tf weight
equals the threshold `0.250004`, so the raw score hits the threshold
exactly (bias LONG) but `round(score, 4)` falls below it. -/
def c2Agg : AggregationResult :=
  { symbol := "ETHUSDT"
    timeframes :=
      [("5m",
        { tf := "5m", buy_count := 1
          indicators := [{ indicator := "Ind", signal := "BUY", strength := 1, ts := 0 }] })] }

def c2Cfg : RuntimeConfig :=
  { tf_weights := [("5m", 250004/1000000)]
    indicator_weights := []
    threshold := 250004/1000000 }

def c2Ind : IndicatorSignal := { indicator := "Ind", signal := "BUY", strength := 1, ts := 0 }

/-- The full output of `evaluate` at `c2Agg`/`c2Cfg`. -/
def c2Out : RulesOutput :=
  { symbol := "ETHUSDT", decision := "LONG_SETUP", bias := "LONG", confidence := 50
    score := 1/4, threshold := 250004/1000000
    reasons := [reasonString "5m" c2Ind (250004/1000000)]
    veto_applied := false, veto_reason := none }

theorem c2_evaluate_concrete : evaluate c2Agg c2Cfg = some c2Out := by
  have hd : direction (pyUpper "BUY") = 1 := rfl
  have h1 : scoreReasons c2Agg c2Cfg =
      (250004/1000000, [reasonString "5m" c2Ind (250004/1000000)]) := by
    simp [scoreReasons, c2Agg, c2Cfg, tfStep, dictGet, hd, c2Ind]
  have hb : biasOf ((250004:ℚ)/1000000) ((250004:ℚ)/1000000) = "LONG" := by norm_num [biasOf]
  have hv : ∀ b, vetoOf c2Agg c2Cfg b = (false, none) := fun b => by simp [vetoOf, c2Agg]
  have hr : pyRound 4 ((250004:ℚ)/1000000) = 1/4 := by norm_num [pyRound, rhe, Int.fract]
  have hconf : confidenceOf ((250004:ℚ)/1000000) ((250004:ℚ)/1000000) = 50 := by
    have habs : |(250004:ℚ)/1000000| = 250004/1000000 := abs_of_nonneg (by norm_num)
    rw [confidenceOf, habs]; norm_num [pyTrunc]
  have hth : c2Cfg.threshold = 250004/1000000 := rfl
  rw [evaluate, h1]
  simp only [hth, hb, hv, hr, hconf, decisionOf]
  norm_num [c2Out, c2Agg, c2Ind]

/-- C2 as stated is false on the code: at `c2Agg`/`c2Cfg` the published
`RulesOutput` has `bias = "LONG"` but its (4-decimal rounded) `score`
field lies strictly below its `threshold` field (`0.25 < 0.250004`). -/
theorem evaluate_long_bias_rounded_score_counterexample :
    evaluate c2Agg c2Cfg = some c2Out ∧ c2Out.bias = "LONG" ∧
      c2Out.score < c2Out.threshold :=
  ⟨c2_evaluate_concrete, rfl, by norm_num [c2Out]⟩

/-- C2 (amended): for every `AggregationResult A` and `RuntimeConfig C`
on which `evaluate` succeeds, `veto_applied = true` implies
`decision = "NO_TRADE"`, and the bias inequalities hold for the engine's
internal (pre-rounding) score: `bias = LONG` implies `rawScore ≥ threshold`,
`bias = SHORT` implies `rawScore ≤ -threshold`, `bias = NEUTRAL` implies
`|rawScore| < threshold`.  The published `score` field is the internal
score rounded half-even to 4 decimals, so the inequalities only hold for
it up to that rounding (see the counterexample). -/
theorem evaluate_invariants (A : AggregationResult) (C : RuntimeConfig)
    (out : RulesOutput) (h : evaluate A C = some out) :
    (out.veto_applied = true → out.decision = "NO_TRADE") ∧
    (out.bias = "LONG" → rawScore A C ≥ out.threshold) ∧
    (out.bias = "SHORT" → rawScore A C ≤ -out.threshold) ∧
    (out.bias = "NEUTRAL" → |rawScore A C| < out.threshold) ∧
    out.score = pyRound 4 (rawScore A C) ∧ out.threshold = C.threshold := by
  obtain ⟨-, rfl⟩ := evaluate_eq_some h
  refine ⟨fun hv => ?_, fun hb => ?_, fun hb => ?_, fun hb => ?_, rfl, rfl⟩
  · simpa [decisionOf] using congrArg (decisionOf · _) hv
  · exact biasOf_long hb
  · exact biasOf_short hb
  · exact biasOf_neutral hb

def c2wAgg : AggregationResult := { symbol := "BTCUSDT", timeframes := [] }

def c2wCfg : RuntimeConfig := { threshold := 1 }

def c2wOut : RulesOutput :=
  { symbol := "BTCUSDT", decision := "WATCH", bias := "NEUTRAL", confidence := 0
    score := 0, threshold := 1, reasons := [] }

theorem evaluate_invariants_witness :
    evaluate c2wAgg c2wCfg = some c2wOut ∧
    ((c2wOut.veto_applied = true → c2wOut.decision = "NO_TRADE") ∧
     (c2wOut.bias = "LONG" → rawScore c2wAgg c2wCfg ≥ c2wOut.threshold) ∧
     (c2wOut.bias = "SHORT" → rawScore c2wAgg c2wCfg ≤ -c2wOut.threshold) ∧
     (c2wOut.bias = "NEUTRAL" → |rawScore c2wAgg c2wCfg| < c2wOut.threshold) ∧
     c2wOut.score = pyRound 4 (rawScore c2wAgg c2wCfg) ∧
     c2wOut.threshold = c2wCfg.threshold) := by
  have h : evaluate c2wAgg c2wCfg = some c2wOut := by
    norm_num [evaluate, c2wAgg, c2wCfg, c2wOut, scoreReasons, rawScore,
      biasOf, vetoOf, decisionOf, confidenceOf, pyRound, rhe, pyTrunc]
    decide
  exact ⟨h, evaluate_invariants c2wAgg c2wCfg c2wOut h⟩

/-! ## Characterizations of the `evaluate` folds (shared lemmas) -/

/-- Spec-shaped reasons list: one formatted entry per indicator signal
whose direction is non-zero, in iteration order. -/
def reasonsByDirection (A : AggregationResult) (C : RuntimeConfig) : List String :=
  A.timeframes.flatMap (fun p =>
    p.2.indicators.filterMap (fun i =>
      let d := direction (pyUpper i.signal)
      if d ≠ 0 then
        some (reasonString p.1 i
          (d * dictGet C.tf_weights p.1 0 * dictGet C.indicator_weights i.indicator 1 * i.strength))
      else none))

/-- The reasons list claimed by the spec sentence under review: one
formatted entry per indicator signal whose contribution is non-zero. -/
def reasonsNonzeroContrib (A : AggregationResult) (C : RuntimeConfig) : List String :=
  A.timeframes.flatMap (fun p =>
    p.2.indicators.filterMap (fun i =>
      let contribution := direction (pyUpper i.signal) * dictGet C.tf_weights p.1 0 *
        dictGet C.indicator_weights i.indicator 1 * i.strength
      if contribution ≠ 0 then some (reasonString p.1 i contribution) else none))

theorem foldl_tfStep_snd (C : RuntimeConfig) (tf : String) (w : ℚ) :
    ∀ (l : List IndicatorSignal) (acc : ℚ × List String),
      (l.foldl (tfStep C tf w) acc).2 =
        acc.2 ++ l.filterMap (fun i =>
          let d := direction (pyUpper i.signal)
          if d ≠ 0 then
            some (reasonString tf i (d * w * dictGet C.indicator_weights i.indicator 1 * i.strength))
          else none)
  | [], acc => by simp
  | i :: l, acc => by
    rw [List.foldl_cons, foldl_tfStep_snd C tf w l, List.filterMap_cons]
    by_cases hd : direction (pyUpper i.signal) ≠ 0
    · simp [tfStep, hd]
    · simp at hd
      simp [tfStep, hd]

theorem foldl_tfStep_fst (C : RuntimeConfig) (tf : String) (w : ℚ) :
    ∀ (l : List IndicatorSignal) (acc : ℚ × List String),
      (l.foldl (tfStep C tf w) acc).1 =
        l.foldl (fun s i =>
          s + direction (pyUpper i.signal) * w * dictGet C.indicator_weights i.indicator 1 * i.strength) acc.1
  | [], _ => rfl
  | i :: l, acc => by
    rw [List.foldl_cons, List.foldl_cons, foldl_tfStep_fst C tf w l]
    rfl

theorem scoreReasons_foldl_snd (C : RuntimeConfig) :
    ∀ (ts : List (String × TimeframeSummary)) (acc : ℚ × List String),
      (ts.foldl (fun acc p =>
        p.2.indicators.foldl (tfStep C p.1 (dictGet C.tf_weights p.1 0)) acc) acc).2 =
      acc.2 ++ ts.flatMap (fun p =>
        p.2.indicators.filterMap (fun i =>
          let d := direction (pyUpper i.signal)
          if d ≠ 0 then
            some (reasonString p.1 i
              (d * dictGet C.tf_weights p.1 0 * dictGet C.indicator_weights i.indicator 1 * i.strength))
          else none))
  | [], acc => by simp
  | p :: ts, acc => by
    rw [List.foldl_cons, scoreReasons_foldl_snd C ts, List.flatMap_cons, foldl_tfStep_snd]
    simp

/-- The reasons component of `scoreReasons` is exactly the by-direction list. -/
theorem scoreReasons_snd (A : AggregationResult) (C : RuntimeConfig) :
    (scoreReasons A C).2 = reasonsByDirection A C := by
  unfold scoreReasons reasonsByDirection
  simpa using scoreReasons_foldl_snd C A.timeframes (0, [])

/-! ## Association-list helpers (shared lemmas) -/

theorem find?_none_filter_nil {β : Type} (l : List (String × β)) (k : String)
    (h : l.find? (fun p => p.1 == k) = none) : l.filter (fun p => p.1 == k) = [] := by
  rw [List.filter_eq_nil_iff]
  intro p hp
  have := List.find?_eq_none.mp h p hp
  simpa using this

theorem nodup_find?_filter {β : Type} (k : String) :
    ∀ (l : List (String × β)), (l.map Prod.fst).Nodup →
      ∀ q, l.find? (fun p => p.1 == k) = some q → l.filter (fun p => p.1 == k) = [q]
  | [], _, q, hq => by simp at hq
  | p :: l, hnd, q, hq => by
    rw [List.map_cons, List.nodup_cons] at hnd
    by_cases hp : p.1 == k
    · simp only [List.find?_cons, hp, cond_true, Option.some.injEq] at hq
      subst hq
      simp only [List.filter_cons, hp, if_true]
      have hrest : l.filter (fun r => r.1 == k) = [] := by
        rw [List.filter_eq_nil_iff]
        intro r hr hrk
        apply hnd.1
        have h1 : r.1 = k := by simpa using hrk
        have h2 : p.1 = k := by simpa using hp
        rw [h2, ← h1]
        exact List.mem_map_of_mem Prod.fst hr
      rw [hrest]
    · rw [Bool.not_eq_true] at hp
      simp only [List.find?_cons, hp, cond_false] at hq
      simp only [List.filter_cons, hp, Bool.false_eq_true, if_false]
      exact nodup_find?_filter k l hnd.2 q hq

theorem dictGet_of_hasKey {α : Type} {d : List (String × α)} {k : String}
    (h : hasKey d k = true) (a b : α) : dictGet d k a = dictGet d k b := by
  unfold hasKey at h
  unfold dictGet
  obtain ⟨p, hp⟩ := Option.isSome_iff_exists.mp h
  rw [hp]

/-! ## Claim C4 — the 4h veto score -/

/-- The 4h veto score as `evaluate` computes it: `h4ScoreCode` on the
dict-lookup of the `"4h"` summary, `0` when that summary is absent. -/
def h4ScoreCodeAt (A : AggregationResult) (C : RuntimeConfig) : ℚ :=
  match A.timeframes.find? (fun p => p.1 == "4h") with
  | some p => h4ScoreCode p.2 C
  | none => 0

/-- Modelled from the claim wording: the 4h-only restriction of the main
score, as the sum over 4h indicator signals of
direction × `w` × indicator_weight × strength, for a 4h timeframe weight `w`. -/
def h4Restriction (w : ℚ) (A : AggregationResult) (C : RuntimeConfig) : ℚ :=
  (A.timeframes.filter (fun p => p.1 == "4h")).foldl (fun s p =>
    p.2.indicators.foldl (fun s i =>
      s + direction (pyUpper i.signal) * w *
        dictGet C.indicator_weights i.indicator 1 * i.strength) s) 0

def c4Sum4h : TimeframeSummary :=
  { tf := "4h", buy_count := 1, sell_count := 1
    indicators := [{ indicator := "I2", signal := "BUY", strength := 1/10, ts := 0 },
                   { indicator := "I3", signal := "SELL", strength := 9/10, ts := 0 }] }

def c4Agg : AggregationResult :=
  { symbol := "ETHUSDT"
    timeframes :=
      [("1h", { tf := "1h", buy_count := 1
                indicators := [{ indicator := "I1", signal := "BUY", strength := 1, ts := 0 }] }),
       ("4h", c4Sum4h)] }

/-- A config that leaves `"4h"` unlisted in `tf_weights`: the main score
gives 4h contributions weight `0`, the veto gives them weight `0.5`. -/
def c4Cfg : RuntimeConfig := { tf_weights := [("1h", 1)], indicator_weights := [], threshold := 1/4 }

/-- C4 as stated is false on the code: with `"4h"` unlisted in
`tf_weights`, the code's 4h veto score is `-2/5` (default weight `0.5`)
while the claim's 4h-only restriction of the main score (default weight
`0.0`) is `0`; observably, `evaluate` vetoes the LONG bias here although
under the claim's formula no net-sell condition would hold. -/
theorem h4_veto_score_counterexample :
    h4ScoreCodeAt c4Agg c4Cfg = -2/5 ∧
    h4Restriction (dictGet c4Cfg.tf_weights "4h" 0) c4Agg c4Cfg = 0 ∧
    (evaluate c4Agg c4Cfg).map (fun o => (o.bias, o.veto_applied, o.decision)) =
      some ("LONG", true, "NO_TRADE") := by
  have hd1 : direction (pyUpper "BUY") = 1 := rfl
  have hd2 : direction (pyUpper "SELL") = -1 := rfl
  refine ⟨?_, ?_, ?_⟩
  · simp [h4ScoreCodeAt, c4Agg, c4Sum4h, h4ScoreCode, c4Cfg, dictGet, hd1, hd2]
    norm_num
  · simp [h4Restriction, c4Agg, c4Sum4h, c4Cfg, dictGet, hd1, hd2]
  · have hsr1 : (scoreReasons c4Agg c4Cfg).1 = 1 := by
      simp [scoreReasons, c4Agg, c4Sum4h, c4Cfg, tfStep, dictGet, hd1, hd2]
    have hb : biasOf (1 : ℚ) (1/4) = "LONG" := by norm_num [biasOf]
    have hs : h4ScoreCode c4Sum4h c4Cfg = -2/5 := by
      simp [h4ScoreCode, c4Sum4h, c4Cfg, dictGet, hd1, hd2]
      norm_num
    have hveto : vetoOf c4Agg c4Cfg "LONG" = (true, some "4H net SELL — LONG_SETUP vetoed") := by
      simp [vetoOf, c4Agg, hs]
      norm_num
    have hth : c4Cfg.threshold = 1/4 := rfl
    rw [evaluate]
    simp only [hsr1, hth, hb, hveto, decisionOf]
    norm_num

/-- C4 (amended): for every aggregation whose timeframe keys are distinct
(as in a Python dict) and every config, the 4h veto score computed by
`evaluate` equals the 4h-only restriction of the main score computed with
`tf_weight("4h")` defaulting to `0.5` — not `0.0` — when `"4h"` is
unlisted in `tf_weights`; when `"4h"` is listed the two defaults agree and
the claim's equality holds. -/
theorem h4_veto_weight (A : AggregationResult) (C : RuntimeConfig)
    (hnd : (A.timeframes.map Prod.fst).Nodup) :
    h4ScoreCodeAt A C = h4Restriction (dictGet C.tf_weights "4h" (1/2)) A C ∧
    (hasKey C.tf_weights "4h" = true →
      h4ScoreCodeAt A C = h4Restriction (dictGet C.tf_weights "4h" 0) A C) := by
  have hmain : h4ScoreCodeAt A C = h4Restriction (dictGet C.tf_weights "4h" (1/2)) A C := by
    unfold h4ScoreCodeAt h4Restriction
    cases hfind : A.timeframes.find? (fun p => p.1 == "4h") with
    | none => rw [find?_none_filter_nil _ _ hfind]; rfl
    | some p => rw [nodup_find?_filter _ _ hnd p hfind]; rfl
  refine ⟨hmain, fun hk => ?_⟩
  rw [hmain, dictGet_of_hasKey hk (1/2) 0]

/-- A config that lists `"4h"` in `tf_weights`, exercising the second
conjunct of the amended C4. -/
def c4wCfg : RuntimeConfig := { tf_weights := [("4h", 1/3)], indicator_weights := [] }

theorem h4_veto_weight_witness :
    (c4Agg.timeframes.map Prod.fst).Nodup ∧
    h4ScoreCodeAt c4Agg c4wCfg = h4Restriction (dictGet c4wCfg.tf_weights "4h" (1/2)) c4Agg c4wCfg ∧
    hasKey c4wCfg.tf_weights "4h" = true ∧
    h4ScoreCodeAt c4Agg c4wCfg = h4Restriction (dictGet c4wCfg.tf_weights "4h" 0) c4Agg c4wCfg := by
  have hnd : (c4Agg.timeframes.map Prod.fst).Nodup := by
    simp [c4Agg]
  obtain ⟨h1, h2⟩ := h4_veto_weight c4Agg c4wCfg hnd
  exact ⟨hnd, h1, rfl, h2 rfl⟩

/-! ## Claim C9 — the reasons list -/

def c9Sum : TimeframeSummary :=
  { tf := "5m"
    indicators := [{ indicator := "Ind", signal := "BUY", strength := 1, ts := 0 }] }

def c9Agg : AggregationResult :=
  { symbol := "ETHUSDT", timeframes := [("5m", c9Sum)] }

/-- A config with no tf weights: every contribution is `0`. -/
def c9Cfg : RuntimeConfig := { tf_weights := [], indicator_weights := [], threshold := 1 }

def c9Ind : IndicatorSignal := { indicator := "Ind", signal := "BUY", strength := 1, ts := 0 }

def c9Out : RulesOutput :=
  { symbol := "ETHUSDT", decision := "WATCH", bias := "NEUTRAL", confidence := 0
    score := 0, threshold := 1, reasons := [reasonString "5m" c9Ind 0]
    veto_applied := false, veto_reason := none }

theorem c9_evaluate_concrete : evaluate c9Agg c9Cfg = some c9Out := by
  have hd : direction (pyUpper "BUY") = 1 := rfl
  have h1 : scoreReasons c9Agg c9Cfg = (0, [reasonString "5m" c9Ind 0]) := by
    simp [scoreReasons, c9Agg, c9Sum, c9Cfg, tfStep, dictGet, hd, c9Ind]
  have hb : biasOf (0 : ℚ) 1 = "NEUTRAL" := by norm_num [biasOf]
  have hv : ∀ b, vetoOf c9Agg c9Cfg b = (false, none) := fun b => by simp [vetoOf, c9Agg, c9Sum]
  have hr : pyRound 4 (0 : ℚ) = 0 := by norm_num [pyRound, rhe, Int.fract]
  have hconf : confidenceOf (0 : ℚ) 1 = 0 := by norm_num [confidenceOf, pyTrunc]
  have hth : c9Cfg.threshold = 1 := rfl
  rw [evaluate, h1]
  simp only [hth, hb, hv, hr, hconf, decisionOf]
  norm_num [c9Out, c9Agg, c9Ind]
  decide

/-- C9 as stated is false on the code: at `c9Agg`/`c9Cfg` the single BUY
signal has contribution `0` (its timeframe weight is `0`), so the claimed
reasons list (one entry per non-zero contribution) is empty, yet
`evaluate` emits one reasons entry — the trigger is non-zero direction,
not non-zero contribution. -/
theorem evaluate_reasons_counterexample :
    evaluate c9Agg c9Cfg = some c9Out ∧ c9Out.reasons.length = 1 ∧
      reasonsNonzeroContrib c9Agg c9Cfg = [] := by
  refine ⟨c9_evaluate_concrete, rfl, ?_⟩
  have hd : direction (pyUpper "BUY") = 1 := rfl
  simp [reasonsNonzeroContrib, c9Agg, c9Sum, c9Cfg, dictGet, hd]

/-- C9 (amended): for every aggregation and config on which `evaluate`
succeeds, the reasons list has exactly one entry per indicator signal
whose direction is non-zero (BUY or SELL after upcasing) — including
signals whose contribution is zero — formatted as
`"{indicator}@{tf}: {signal} (str={strength:.1f}, contrib={contribution:+.3f})"`,
in timeframe iteration order; CLOSE, NEUTRAL and unknown signals
produce no entry. -/
theorem evaluate_reasons_by_direction (A : AggregationResult) (C : RuntimeConfig)
    (out : RulesOutput) (h : evaluate A C = some out) :
    out.reasons = reasonsByDirection A C := by
  obtain ⟨-, rfl⟩ := evaluate_eq_some h
  exact scoreReasons_snd A C

theorem evaluate_reasons_by_direction_witness :
    evaluate c9Agg c9Cfg = some c9Out ∧
      c9Out.reasons = reasonsByDirection c9Agg c9Cfg :=
  ⟨c9_evaluate_concrete,
   evaluate_reasons_by_direction c9Agg c9Cfg c9Out c9_evaluate_concrete⟩

/-! ## Normalizer (`app/modules/normalizer.py`) -/

def isPySpace (c : Char) : Bool :=
  c.toNat == 32 || c.toNat == 9 || c.toNat == 10 || c.toNat == 13 || c.toNat == 11 || c.toNat == 12

def pyStrip (s : String) : String :=
  String.mk (((s.data.dropWhile isPySpace).reverse.dropWhile isPySpace).reverse)

def isSymChar (c : Char) : Bool :=
  (65 ≤ c.toNat && c.toNat ≤ 90) || (48 ≤ c.toNat && c.toNat ≤ 57)

def isUpChar (c : Char) : Bool := 65 ≤ c.toNat && c.toNat ≤ 90

def stripExchangePre (l : List Char) : List Char :=
  let run := l.takeWhile isSymChar
  let rest := l.drop run.length
  if run ≠ [] ∧ rest.head? = some ':' then rest.tail else l

def stripDotSuf (l : List Char) : List Char :=
  let r := l.reverse
  let run := r.takeWhile isUpChar
  if run ≠ [] ∧ (r.drop run.length).head? = some '.' then ((r.drop run.length).tail).reverse else l

def normalize_symbol (raw : String) : String :=
  String.mk (stripDotSuf (stripExchangePre (pyUpper (pyStrip raw)).data))

/-- C7 as stated is false on the code: `normalize_symbol` is not
idempotent, because `re.sub` strips only one anchored prefix (and one
suffix) per call — a second application strips again. -/
theorem normalize_symbol_idempotence_counterexample :
    normalize_symbol "A:B:C" = "B:C" ∧
      normalize_symbol (normalize_symbol "A:B:C") = "C" ∧
      normalize_symbol (normalize_symbol "A:B:C") ≠ normalize_symbol "A:B:C" :=
  ⟨rfl, rfl, by decide⟩

example : normalize_symbol "BINANCE:ETHUSDT.P" = "ETHUSDT" := rfl
example : normalize_symbol "  binance:ethusdt.p " = "ETHUSDT" := rfl
example : normalize_symbol ".AB" = "" := rfl
example : normalize_symbol "X.AB.CD" = "X.AB" := rfl

theorem charToNat_ofNat_valid {m : Nat} (hv : m.isValidChar) : (Char.ofNat m).toNat = m := by
  unfold Char.ofNat
  rw [dif_pos hv]
  unfold Char.ofNatAux Char.toNat
  simp [UInt32.toNat]

theorem toUpper_toUpper (c : Char) : c.toUpper.toUpper = c.toUpper := by
  unfold Char.toUpper
  by_cases h : 97 ≤ c.toNat ∧ c.toNat ≤ 122
  · rw [if_pos h]
    have hv : (c.toNat - 32).isValidChar := Or.inl (by omega)
    rw [charToNat_ofNat_valid hv]
    rw [if_neg (by omega)]
  · rw [if_neg h, if_neg h]

theorem mem_stripExchangePre {c : Char} {l : List Char} (h : c ∈ stripExchangePre l) : c ∈ l := by
  simp only [stripExchangePre] at h
  split at h
  · exact List.mem_of_mem_drop (List.mem_of_mem_tail h)
  · exact h

theorem mem_stripDotSuf {c : Char} {l : List Char} (h : c ∈ stripDotSuf l) : c ∈ l := by
  simp only [stripDotSuf] at h
  split at h
  · rw [List.mem_reverse] at h
    have := List.mem_of_mem_drop (List.mem_of_mem_tail h)
    rwa [List.mem_reverse] at this
  · exact h

theorem upper_stable_of_mem {c : Char} {x : String} (h : c ∈ (pyUpper x).data) :
    c.toUpper = c := by
  unfold pyUpper at h
  simp only [List.mem_map] at h
  obtain ⟨d, -, rfl⟩ := h
  exact toUpper_toUpper d

theorem string_mk_data (t : String) : String.mk t.data = t := by
  cases t
  rfl

theorem pyUpper_eq_self {t : String} (h : ∀ c ∈ t.data, c.toUpper = c) :
    pyUpper t = t := by
  unfold pyUpper
  have hm : t.data.map Char.toUpper = t.data := by
    conv_rhs => rw [← List.map_id t.data]
    exact List.map_congr_left h
  rw [hm, string_mk_data]

theorem normalize_symbol_data (raw : String) :
    (normalize_symbol raw).data = stripDotSuf (stripExchangePre (pyUpper (pyStrip raw)).data) := rfl

theorem normalize_symbol_upper_stable (raw : String) :
    ∀ c ∈ (normalize_symbol raw).data, c.toUpper = c := by
  intro c hc
  rw [normalize_symbol_data] at hc
  exact upper_stable_of_mem (mem_stripExchangePre (mem_stripDotSuf hc))

/-- C7 (amended): `normalize_symbol` uppercases, trims, and strips one
leading exchange prefix and one trailing dot-suffix; it is idempotent on
every input whose normalized form is already trimmed and matches neither
the prefix pattern `^[A-Z0-9]+:` nor the suffix pattern `\.[A-Z]+$`
(uppercasing alone is always idempotent on its output). -/
theorem normalize_symbol_conditional_idempotent (s : String)
    (h0 : pyStrip (normalize_symbol s) = normalize_symbol s)
    (h1 : stripExchangePre (normalize_symbol s).data = (normalize_symbol s).data)
    (h2 : stripDotSuf (normalize_symbol s).data = (normalize_symbol s).data) :
    normalize_symbol (normalize_symbol s) = normalize_symbol s := by
  have hu : pyUpper (normalize_symbol s) = normalize_symbol s :=
    pyUpper_eq_self (normalize_symbol_upper_stable s)
  conv_lhs => rw [normalize_symbol, h0, hu, h1, h2]

theorem normalize_symbol_conditional_idempotent_witness :
    pyStrip (normalize_symbol "BINANCE:ETHUSDT.P") = normalize_symbol "BINANCE:ETHUSDT.P" ∧
    stripExchangePre (normalize_symbol "BINANCE:ETHUSDT.P").data =
      (normalize_symbol "BINANCE:ETHUSDT.P").data ∧
    stripDotSuf (normalize_symbol "BINANCE:ETHUSDT.P").data =
      (normalize_symbol "BINANCE:ETHUSDT.P").data ∧
    normalize_symbol (normalize_symbol "BINANCE:ETHUSDT.P") = normalize_symbol "BINANCE:ETHUSDT.P" :=
  ⟨rfl, rfl, rfl, normalize_symbol_conditional_idempotent "BINANCE:ETHUSDT.P" rfl rfl rfl⟩



def TF_MAP : List (String × String) :=
  [("5", "5m"), ("5m", "5m"), ("15", "15m"), ("15m", "15m"),
   ("60", "1h"), ("1h", "1h"), ("1H", "1h"), ("240", "4h"), ("4h", "4h"), ("4H", "4h")]

def findMap (d : List (String × String)) (k : String) : Option String :=
  (d.find? (fun p => p.1 == k)).map Prod.snd

def normalize_tf (raw_tf : String) : Option String :=
  let cleaned := pyStrip raw_tf
  match findMap TF_MAP cleaned with
  | some r => some r
  | none => findMap TF_MAP (pyLower cleaned)

example : normalize_tf " 60 " = some "1h" := rfl
example : normalize_tf "4H" = some "4h" := rfl
example : normalize_tf "3h" = none := rfl
example : normalize_tf "" = none := rfl
example : normalize_tf "15M" = some "15m" := rfl

def isDig (c : Char) : Bool := 48 ≤ c.toNat && c.toNat ≤ 57

def digitsVal (l : List Char) : ℕ := l.foldl (fun a c => a * 10 + (c.toNat - 48)) 0

def parseIntStr (s : String) : Option ℤ :=
  let l := (pyStrip s).data
  let sd : ℤ × List Char :=
    match l with
    | '+' :: r => (1, r)
    | '-' :: r => (-1, r)
    | r => (1, r)
  if sd.2 ≠ [] ∧ sd.2.all isDig then some (sd.1 * digitsVal sd.2) else none

example : parseIntStr "1699999999" = some 1699999999 := rfl
example : parseIntStr " -42 " = some (-42) := rfl
example : parseIntStr "12.5" = none := rfl
example : parseIntStr "" = none := rfl

def isLeap (y : ℤ) : Bool := (y % 4 == 0 && !(y % 100 == 0)) || y % 400 == 0

def daysInMonth (y m : ℤ) : ℤ :=
  if m = 2 then (if isLeap y then 29 else 28)
  else if m = 4 ∨ m = 6 ∨ m = 9 ∨ m = 11 then 30 else 31

def daysFromCivil (y m d : ℤ) : ℤ :=
  let y2 := if m ≤ 2 then y - 1 else y
  let era := Int.fdiv y2 400
  let yoe := y2 - era * 400
  let mAdj := if 2 < m then m - 3 else m + 9
  let doy := Int.fdiv (153 * mAdj + 2) 5 + d - 1
  let doe := yoe * 365 + Int.fdiv yoe 4 - Int.fdiv yoe 100 + doy
  era * 146097 + doe - 719468

example : daysFromCivil 1970 1 1 = 0 := rfl
example : daysFromCivil 2024 1 1 = 19723 := rfl
example : daysFromCivil 1969 12 31 = -1 := rfl

def parseNum2 (l : List Char) : Option (ℕ × List Char) :=
  let ds := l.takeWhile isDig
  if ds.length = 1 ∨ ds.length = 2 then some (digitsVal ds, l.drop ds.length) else none

def parseNum4 (l : List Char) : Option (ℕ × List Char) :=
  let ds := l.takeWhile isDig
  if ds.length = 4 then some (digitsVal ds, l.drop 4) else none

def expectChar (c : Char) : List Char → Option (List Char)
  | x :: r => if x = c then some r else none
  | [] => none

/-- Python `datetime.strptime` on one of the three fixed formats, followed by
`.replace(tzinfo=utc).timestamp()`; `none` models `ValueError`. -/
def parseDateTime (sep : Char) (zSuffix : Bool) (l : List Char) : Option ℤ := do
  let (y, l) ← parseNum4 l
  let l ← expectChar '-' l
  let (mo, l) ← parseNum2 l
  let l ← expectChar '-' l
  let (d, l) ← parseNum2 l
  let l ← expectChar sep l
  let (h, l) ← parseNum2 l
  let l ← expectChar ':' l
  let (mi, l) ← parseNum2 l
  let l ← expectChar ':' l
  let (s, l) ← parseNum2 l
  let l ← (if zSuffix then expectChar 'Z' l else some l)
  if l = [] ∧ 1 ≤ y ∧ 1 ≤ mo ∧ mo ≤ 12 ∧ 1 ≤ d ∧ (d : ℤ) ≤ daysInMonth y mo ∧
      h ≤ 23 ∧ mi ≤ 59 ∧ s ≤ 59 then
    some (daysFromCivil y mo d * 86400 + h * 3600 + mi * 60 + s)
  else none

/-- Function `_safe_int` from `app/modules/normalizer.py`. -/
def safe_int (value : Option (ℤ ⊕ String)) : Option ℤ :=
  match value with
  | none => none
  | some (Sum.inl n) => some n
  | some (Sum.inr s) =>
    match parseIntStr s with
    | some n => some n
    | none =>
      let t := (pyStrip s).data
      match parseDateTime 'T' true t with
      | some e => some e
      | none =>
        match parseDateTime 'T' false t with
        | some e => some e
        | none => parseDateTime ' ' false t

example : safe_int (some (Sum.inr "1970-01-01T00:00:00Z")) = some 0 := rfl
example : safe_int (some (Sum.inr "2024-01-01T00:00:01")) = some 1704067201 := rfl
example : safe_int (some (Sum.inr "2024-01-01 00:00:01")) = some 1704067201 := rfl
example : safe_int (some (Sum.inr "2024-02-30T00:00:00Z")) = none := rfl
example : safe_int (some (Sum.inr "not-a-ts")) = none := rfl
example : safe_int (some (Sum.inl 7)) = some 7 := rfl
example : safe_int none = none := rfl



/-- Python `float(str)` on the finite decimal / scientific fragment
(`inf`, `nan` and underscore grouping are outside the model). -/
def parseFloatStr (s : String) : Option ℚ :=
  let l := (pyStrip s).data
  let sd : ℚ × List Char :=
    match l with
    | '+' :: r => (1, r)
    | '-' :: r => (-1, r)
    | r => (1, r)
  let ip := sd.2.takeWhile isDig
  let l2 := sd.2.drop ip.length
  let fd : List Char × List Char :=
    match l2 with
    | '.' :: r => (r.takeWhile isDig, r.drop (r.takeWhile isDig).length)
    | _ => ([], l2)
  if ip = [] ∧ fd.1 = [] then none
  else
    let mant : ℚ := sd.1 * ((digitsVal ip : ℚ) + (digitsVal fd.1 : ℚ) / (10 : ℚ) ^ fd.1.length)
    match fd.2 with
    | [] => some mant
    | c :: r =>
      if c = 'e' ∨ c = 'E' then
        let ed : ℤ × List Char :=
          match r with
          | '+' :: r2 => (1, r2)
          | '-' :: r2 => (-1, r2)
          | r2 => (1, r2)
        if ed.2 ≠ [] ∧ ed.2.all isDig then
          some (mant * (10 : ℚ) ^ (ed.1 * (digitsVal ed.2 : ℤ)))
        else none
      else none

/-- Function `_safe_float` from `app/modules/normalizer.py`. -/
def safe_float (value : Option (ℚ ⊕ String)) : Option ℚ :=
  match value with
  | none => none
  | some (Sum.inl q) => some q
  | some (Sum.inr s) => parseFloatStr s

example : parseFloatStr "abc" = none := rfl
example : parseFloatStr "" = none := rfl
example : (parseFloatStr "0.8").isSome = true := rfl
example : (parseFloatStr "-1.5e2").isSome = true := rfl
example : (parseFloatStr "5.").isSome = true := rfl
example : parseFloatStr "5e" = none := rfl



/-- Schema `WebhookPayload` (pydantic model); numeric-or-string wire fields are
sums, absent fields are `none`. -/
structure WebhookPayload where
  secret : String
  indicator : String
  symbol : String
  tf : String
  signal : String
  strength : Option (ℚ ⊕ String) := none
  price : Option (ℚ ⊕ String) := none
  event_id : Option String := none
  ts : Option (ℤ ⊕ String) := none
deriving DecidableEq, Repr

/-- Schema `NormalizedEvent` (pydantic model); `raw` is the payload with the
secret removed. -/
structure NormalizedEvent where
  event_id : String
  received_at : ℤ
  ts : ℤ
  indicator : String
  symbol : String
  tf : String
  signal : String
  strength : ℚ
  price : ℚ
  raw : WebhookPayload
deriving DecidableEq, Repr

def SIGNAL_MAP : List (String × String) :=
  [("BUY", "BUY"), ("SELL", "SELL"), ("CLOSE", "CLOSE"), ("NEUTRAL", "NEUTRAL"),
   ("LONG", "BUY"), ("SHORT", "SELL"), ("EXIT", "CLOSE"), ("FLAT", "NEUTRAL")]

def STRICT_SIGNALS : List String := ["BUY", "SELL", "LONG", "SHORT"]

/-- Interpolation `f"{x}"` for the ts wire field (only the string branch is reachable
in error messages, since plain ints always parse). -/
def fmtTsVal : Option (ℤ ⊕ String) → String
  | some (Sum.inl n) => toString n
  | some (Sum.inr s) => s
  | none => "None"

/-- Interpolation `f"{x}"` for a float-or-string wire field (only the string branch is
reachable in error messages, since numbers always parse). -/
def fmtFloatVal : Option (ℚ ⊕ String) → String
  | some (Sum.inl q) => toString q.num
  | some (Sum.inr s) => s
  | none => "None"

/-- Interpolation `f"{payload.ts or ''}"` in the dedupe hash key. -/
def orEmptyTs : Option (ℤ ⊕ String) → String
  | none => ""
  | some (Sum.inl n) => if n = 0 then "" else toString n
  | some (Sum.inr s) => s

/-- Interpolation `f"{payload.price or ''}"` in the dedupe hash key (the decimal
rendering of a non-zero float is approximated by its numerator and
denominator; no claim depends on it). -/
def orEmptyFloat : Option (ℚ ⊕ String) → String
  | none => ""
  | some (Sum.inl q) => if q = 0 then "" else toString q.num ++ "/" ++ toString q.den
  | some (Sum.inr s) => s

/-- The content string hashed by `_deterministic_hash`. -/
def keyParts (p : WebhookPayload) : String :=
  p.indicator ++ ":" ++ p.symbol ++ ":" ++ p.tf ++ ":" ++
    p.signal ++ ":" ++ orEmptyTs p.ts ++ ":" ++ orEmptyFloat p.price

/-- Function `normalize` from `app/modules/normalizer.py`.  The SHA-256 16-hex
prefix is abstracted as the parameter `sha16`; `now` is the
`int(time.time())` read at entry.  An `Except.error` carries the
`NormalizeError.detail` string. -/
def normalize (sha16 : String → String) (payload : WebhookPayload) (now : ℤ)
    (fallback_price : ℚ) (strict_signal : Bool) : Except String NormalizedEvent :=
  let raw_signal := pyUpper (pyStrip payload.signal)
  if strict_signal = true ∧ ¬ raw_signal ∈ STRICT_SIGNALS then
    Except.error ("Invalid signal: '" ++ payload.signal ++ "'. Expected BUY or SELL.")
  else
    match findMap SIGNAL_MAP raw_signal with
    | none => Except.error ("Unknown signal: '" ++ payload.signal ++ "'")
    | some signal =>
      match normalize_tf payload.tf with
      | none => Except.error ("Invalid timeframe: '" ++ payload.tf ++ "'")
      | some tf =>
        let symbol := normalize_symbol payload.symbol
        if symbol = "" then Except.error "Empty symbol after normalization"
        else
          let parsed_ts := safe_int payload.ts
          if payload.ts ≠ none ∧ parsed_ts = none then
            Except.error ("Cannot parse ts as integer: '" ++ fmtTsVal payload.ts ++ "'")
          else
            let ts : ℤ := match parsed_ts with
              | some t => if t = 0 then now else t
              | none => now
            let parsed_price := safe_float payload.price
            if payload.price ≠ none ∧ parsed_price = none then
              Except.error ("Cannot parse price as number: '" ++ fmtFloatVal payload.price ++ "'")
            else
              let price : ℚ := match parsed_price with
                | some q => q
                | none => fallback_price
              let strength : ℚ := match safe_float payload.strength with
                | some q => max 0 (min 1 q)
                | none => 1/2
              let event_id : String := match payload.event_id with
                | some e => if e ≠ "" then e else sha16 (keyParts payload)
                | none => sha16 (keyParts payload)
              Except.ok
                { event_id := event_id
                  received_at := now
                  ts := ts
                  indicator := pyStrip payload.indicator
                  symbol := symbol
                  tf := tf
                  signal := signal
                  strength := strength
                  price := price
                  raw := { payload with secret := "" } }

theorem normalize_ok_anatomy (sha16 : String → String) (p : WebhookPayload)
    (now : ℤ) (fb : ℚ) (strict : Bool) (e : NormalizedEvent)
    (h : normalize sha16 p now fb strict = .ok e) :
    e.received_at = now ∧
    e.ts = (match safe_int p.ts with | some t => if t = 0 then now else t | none => now) ∧
    e.strength = (match safe_float p.strength with | some q => max 0 (min 1 q) | none => 1/2) ∧
    e.price = (match safe_float p.price with | some q => q | none => fb) ∧
    e.symbol = normalize_symbol p.symbol ∧
    e.indicator = pyStrip p.indicator ∧
    e.raw = { p with secret := "" } ∧
    some e.tf = normalize_tf p.tf := by
  simp only [normalize] at h
  split at h
  · simp at h
  · split at h
    · simp at h
    · split at h
      · simp at h
      · split at h
        · simp at h
        · split at h
          · simp at h
          · split at h
            · simp at h
            · rw [Except.ok.injEq] at h
              subst h
              refine ⟨rfl, rfl, rfl, rfl, rfl, rfl, rfl, ?_⟩
              symm
              assumption



/-- C8 (amended): for every payload accepted by `normalize`, the event's
`ts` equals the parsed payload `ts` whenever it parses to a non-zero
integer; a parsed `ts` of `0` is replaced by `received_at` (Python's
`parsed_ts or now` treats `0` as falsy); and `ts = received_at` when the
payload's `ts` is absent. -/
theorem normalize_ts_semantics (sha16 : String → String) (p : WebhookPayload)
    (now : ℤ) (fb : ℚ) (strict : Bool) (e : NormalizedEvent)
    (h : normalize sha16 p now fb strict = .ok e) :
    (p.ts = none → e.ts = now) ∧
    (∀ t, safe_int p.ts = some t → t ≠ 0 → e.ts = t) ∧
    (safe_int p.ts = some 0 → e.ts = now) ∧
    e.received_at = now := by
  obtain ⟨hrec, hts, -⟩ := normalize_ok_anatomy sha16 p now fb strict e h
  refine ⟨fun hn => ?_, fun t ht hnz => ?_, fun h0 => ?_, hrec⟩
  · rw [hts, hn]
    rfl
  · rw [hts, ht]
    simp [hnz]
  · rw [hts, h0]
    simp

/-- C10: a payload whose `strength` is present but unparseable never
fails because of it: the outcome equals that of the same payload with
`strength` absent (only the preserved `raw` payload differs), and on
success the strength is the default `0.5`; a parseable strength is
clamped to `[0, 1]`.  There is no strength validation error. -/
theorem normalize_strength_semantics (sha16 : String → String) (p : WebhookPayload)
    (now : ℤ) (fb : ℚ) (strict : Bool) :
    (safe_float p.strength = none →
      normalize sha16 { p with strength := none } now fb strict =
        (normalize sha16 p now fb strict).map
          (fun e => { e with raw := { e.raw with strength := none } })) ∧
    (∀ e, normalize sha16 p now fb strict = .ok e →
      e.strength = (match safe_float p.strength with
                    | some q => max 0 (min 1 q)
                    | none => 1/2)) := by
  constructor
  · intro hsf
    simp only [normalize]
    by_cases h1 : strict = true ∧ pyUpper (pyStrip p.signal) ∉ STRICT_SIGNALS
    · simp [h1, Except.map]
    · cases h2 : findMap SIGNAL_MAP (pyUpper (pyStrip p.signal)) with
      | none => simp [h1, h2, Except.map]
      | some sig =>
        cases h3 : normalize_tf p.tf with
        | none => simp [h1, h2, h3, Except.map]
        | some tf =>
          by_cases h4 : normalize_symbol p.symbol = ""
          · simp [h1, h2, h3, h4, Except.map]
          · by_cases h5 : p.ts ≠ none ∧ safe_int p.ts = none
            · simp [h1, h2, h3, h4, h5, Except.map]
            · by_cases h6 : p.price ≠ none ∧ safe_float p.price = none
              · simp [h1, h2, h3, h4, h5, h6, Except.map]
              · have hsn : safe_float (none : Option (ℚ ⊕ String)) = none := rfl
                simp [h1, h2, h3, h4, h5, h6, Except.map, hsf, hsn, keyParts, orEmptyTs, orEmptyFloat]
  · intro e h
    exact (normalize_ok_anatomy sha16 p now fb strict e h).2.2.1



def c8sha : String → String := fun _ => "0000000000000000"

def c8Payload : WebhookPayload :=
  { secret := "s", indicator := "Ind", symbol := "ETHUSDT", tf := "15m",
    signal := "BUY", ts := some (Sum.inl 0) }

/-- C8 as stated is false on the code: a payload with the parseable
timestamp `0` gets `ts = received_at` even though its `ts` was supplied
and parseable. -/
theorem normalize_ts_zero_counterexample :
    safe_int c8Payload.ts = some 0 ∧
    (normalize c8sha c8Payload 1000 0 true).map NormalizedEvent.ts = .ok 1000 ∧
    (1000 : ℤ) ≠ 0 :=
  ⟨rfl, rfl, by decide⟩

def c8wPayload : WebhookPayload :=
  { secret := "s", indicator := "Ind", symbol := "ETHUSDT", tf := "15m",
    signal := "BUY", ts := some (Sum.inl 7) }

def c8wEvent : NormalizedEvent :=
  { event_id := "0000000000000000", received_at := 1000, ts := 7, indicator := "Ind",
    symbol := "ETHUSDT", tf := "15m", signal := "BUY", strength := 1/2, price := 0,
    raw := { c8wPayload with secret := "" } }

theorem normalize_ts_semantics_witness :
    normalize c8sha c8wPayload 1000 0 true = .ok c8wEvent ∧
    safe_int c8wPayload.ts = some 7 ∧ c8wEvent.ts = 7 ∧ c8wEvent.received_at = 1000 := by
  have hEval : normalize c8sha c8wPayload 1000 0 true = .ok c8wEvent := rfl
  have h := normalize_ts_semantics c8sha c8wPayload 1000 0 true c8wEvent hEval
  exact ⟨hEval, rfl, h.2.1 7 rfl (by decide), h.2.2.2⟩

def c10Payload : WebhookPayload :=
  { secret := "s", indicator := "Ind", symbol := "ETHUSDT", tf := "15m",
    signal := "BUY", strength := some (Sum.inr "abc") }

def c10Event : NormalizedEvent :=
  { event_id := "0000000000000000", received_at := 1000, ts := 1000, indicator := "Ind",
    symbol := "ETHUSDT", tf := "15m", signal := "BUY", strength := 1/2, price := 0,
    raw := { c10Payload with secret := "" } }

theorem normalize_strength_semantics_witness :
    safe_float c10Payload.strength = none ∧
    normalize c8sha { c10Payload with strength := none } 1000 0 true =
      (normalize c8sha c10Payload 1000 0 true).map
        (fun e => { e with raw := { e.raw with strength := none } }) ∧
    normalize c8sha c10Payload 1000 0 true = .ok c10Event ∧
    c10Event.strength = 1/2 := by
  have hsf : safe_float c10Payload.strength = none := rfl
  have hEval : normalize c8sha c10Payload 1000 0 true = .ok c10Event := rfl
  obtain ⟨h1, h2⟩ := normalize_strength_semantics c8sha c10Payload 1000 0 true
  refine ⟨hsf, h1 hsf, hEval, ?_⟩
  have := h2 c10Event hEval
  rwa [hsf] at this

/-! ## Latest publisher (`app/modules/scheduler.py`) -/

structure MarketSummary where
  tf : String
  last_price : ℚ
  green_candles : ℤ
  red_candles : ℤ
  slope : ℚ
deriving DecidableEq, Repr

structure LatestAI where
  lines : List String
  generated_at : ℤ
deriving DecidableEq, Repr

structure LatestRules where
  decision : String
  bias : String
  confidence : ℤ
  score : ℚ
  reasons : List String
  signals_used : List IndicatorSignal := []
  aggregated_counts : List (String × List (String × ℤ)) := []
deriving DecidableEq, Repr

structure LatestEvaluation where
  evaluation_id : String
  symbol : String
  latest_rules : LatestRules
  latest_ai : Option LatestAI := none
  market_summary : Option (List (String × MarketSummary)) := none
  evaluated_at : ℤ
deriving DecidableEq, Repr

/-- The stored `tv:latest:{symbol}` value: absent, a parseable envelope
(JSON round-trip modelled as the identity), or a corrupt blob. -/
def LatestCell : Type := Option (LatestEvaluation ⊕ String)

/-- Function `build_latest_rules` from `app/modules/scheduler.py`. -/
def build_latest_rules (rules_out : RulesOutput) (agg : AggregationResult) : LatestRules :=
  { decision := rules_out.decision
    bias := rules_out.bias
    confidence := rules_out.confidence
    score := rules_out.score
    reasons := rules_out.reasons
    signals_used := agg.timeframes.flatMap (fun p => p.2.indicators)
    aggregated_counts := agg.timeframes.map (fun p =>
      (p.1, [("buy", p.2.buy_count), ("sell", p.2.sell_count),
             ("close", p.2.close_count), ("neutral", p.2.neutral_count)])) }

/-- The line clean-up `[l.strip() for l in ai_text.strip().splitlines() if l.strip()][:6]`
(line terminators other than a newline are outside the model). -/
def aiLines (t : String) : List String :=
  ((((pyStrip t).splitOn "\n").map pyStrip).filter (fun l => l ≠ "")).take 6

/-- The previous envelope's AI layer, carried forward when parseable,
absent for a corrupt or missing previous value. -/
def prevAi : LatestCell → Option LatestAI
  | some (Sum.inl prev) => prev.latest_ai
  | _ => none

/-- The monotonicity gate: the write is skipped when a parseable current
envelope is strictly newer than `now`. -/
def gateBlocks (cell : LatestCell) (now : ℤ) : Bool :=
  match cell with
  | some (Sum.inl prev) => decide (prev.evaluated_at > now)
  | _ => false

/-- Function `store_latest` from `app/modules/scheduler.py`, as a transformer of
the stored cell; `now` is `int(time.time())` and `uuid12` the fresh
`uuid4().hex[:12]`. -/
def store_latest (cell : LatestCell) (symbol : String) (rules_out : RulesOutput)
    (agg : AggregationResult) (market : List (String × MarketSummary))
    (ai_text : Option String) (evaluation_id : Option String)
    (now : ℤ) (uuid12 : String) : LatestCell :=
  let lr := build_latest_rules rules_out agg
  let latest_ai_new : Option LatestAI :=
    match ai_text with
    | some t => if t ≠ "" then some { lines := aiLines t, generated_at := now } else none
    | none => none
  let latest_ai : Option LatestAI :=
    match latest_ai_new with
    | some a => some a
    | none => prevAi cell
  let eid : String :=
    match evaluation_id with
    | some e => if e ≠ "" then e else uuid12
    | none => uuid12
  let le : LatestEvaluation :=
    { evaluation_id := eid, symbol := symbol, latest_rules := lr
      latest_ai := latest_ai
      market_summary := if market.isEmpty then none else some market
      evaluated_at := now }
  match cell with
  | some (Sum.inl prev) => if prev.evaluated_at > now then cell else some (Sum.inl le)
  | _ => some (Sum.inl le)

/-- C3: `evaluated_at` is monotonically non-decreasing per symbol: a call
that finds a parseable current envelope strictly newer than its own
timestamp aborts and leaves the cell unchanged, and any parseable
envelope stored by a call is at least as new as the parseable envelope
it replaced. -/
theorem store_latest_monotonic (cell : LatestCell) (symbol : String)
    (rules_out : RulesOutput) (agg : AggregationResult)
    (market : List (String × MarketSummary)) (ai_text : Option String)
    (evaluation_id : Option String) (now : ℤ) (uuid12 : String) :
    (∀ prev, cell = some (Sum.inl prev) → prev.evaluated_at > now →
      store_latest cell symbol rules_out agg market ai_text evaluation_id now uuid12 = cell) ∧
    (∀ prev le2, cell = some (Sum.inl prev) →
      store_latest cell symbol rules_out agg market ai_text evaluation_id now uuid12 =
        some (Sum.inl le2) →
      prev.evaluated_at ≤ le2.evaluated_at) := by
  constructor
  · intro prev hc hgt
    subst hc
    simp only [store_latest]
    rw [if_pos hgt]
  · intro prev le2 hc hst
    subst hc
    simp only [store_latest] at hst
    split at hst
    · rw [Option.some.injEq, Sum.inl.injEq] at hst
      subst hst
      exact le_refl _
    · rw [Option.some.injEq, Sum.inl.injEq] at hst
      subst hst
      simpa using le_of_not_lt (by assumption)



def c3Rules : RulesOutput :=
  { symbol := "ETHUSDT", decision := "WATCH", bias := "NEUTRAL", confidence := 0
    score := 0, threshold := 1/4, reasons := [] }

def c3Agg : AggregationResult := { symbol := "ETHUSDT", timeframes := [] }

def c3Prev : LatestEvaluation :=
  { evaluation_id := "e1", symbol := "ETHUSDT"
    latest_rules := build_latest_rules c3Rules c3Agg
    latest_ai := some { lines := ["old line"], generated_at := 1900 }
    evaluated_at := 2000 }

def c3Cell : LatestCell := some (Sum.inl c3Prev)

theorem store_latest_monotonic_witness :
    store_latest c3Cell "ETHUSDT" c3Rules c3Agg [] none none 1000 "u12" = c3Cell ∧
    c3Prev.evaluated_at ≤ c3Prev.evaluated_at := by
  have h := store_latest_monotonic c3Cell "ETHUSDT" c3Rules c3Agg [] none none 1000 "u12"
  have h1 := h.1 c3Prev rfl (by decide)
  exact ⟨h1, h.2 c3Prev c3Prev rfl h1⟩

/-- C5: when no new AI text is supplied and the monotonicity gate does
not block, `store_latest` writes an envelope whose `latest_ai` is the
previous envelope's AI layer carried verbatim (absent for a corrupt or
missing previous value), and every other field is built solely from the
call's own inputs. -/
theorem store_latest_carry_forward (cell : LatestCell) (symbol : String)
    (rules_out : RulesOutput) (agg : AggregationResult)
    (market : List (String × MarketSummary)) (evaluation_id : Option String)
    (now : ℤ) (uuid12 : String)
    (hgate : gateBlocks cell now = false) :
    store_latest cell symbol rules_out agg market none evaluation_id now uuid12 =
      some (Sum.inl
        { evaluation_id :=
            match evaluation_id with
            | some e => if e ≠ "" then e else uuid12
            | none => uuid12
          symbol := symbol
          latest_rules := build_latest_rules rules_out agg
          latest_ai := prevAi cell
          market_summary := if market.isEmpty then none else some market
          evaluated_at := now }) ∧
    (∀ blob, prevAi (some (Sum.inr blob)) = none) ∧ prevAi none = none := by
  refine ⟨?_, fun blob => rfl, rfl⟩
  simp only [store_latest]
  match cell with
  | none => rfl
  | some (Sum.inr blob) => rfl
  | some (Sum.inl prev) =>
    simp only [gateBlocks, decide_eq_false_iff_not] at hgate
    simp [hgate]

def c5Prev : LatestEvaluation :=
  { evaluation_id := "e1", symbol := "ETHUSDT"
    latest_rules := build_latest_rules c3Rules c3Agg
    latest_ai := some { lines := ["old line"], generated_at := 400 }
    evaluated_at := 500 }

def c5Cell : LatestCell := some (Sum.inl c5Prev)

theorem store_latest_carry_forward_witness :
    gateBlocks c5Cell 1000 = false ∧
    store_latest c5Cell "ETHUSDT" c3Rules c3Agg [] none none 1000 "u12" =
      some (Sum.inl
        { evaluation_id := "u12"
          symbol := "ETHUSDT"
          latest_rules := build_latest_rules c3Rules c3Agg
          latest_ai := some { lines := ["old line"], generated_at := 400 }
          market_summary := none
          evaluated_at := 1000 }) := by
  have hg : gateBlocks c5Cell 1000 = false := by decide
  have h := (store_latest_carry_forward c5Cell "ETHUSDT" c3Rules c3Agg [] none 1000 "u12" hg).1
  exact ⟨hg, h⟩



/-! ## Admin surface (`app/routers/admin.py`) -/

structure HTTPError where
  status_code : ℤ
  detail : String
deriving DecidableEq, Repr

/-- Function `update_config` from `app/routers/admin.py`: check the admin token,
then store the posted config unconditionally (`r.set("tv:config", ...)`)
and echo it.  The result pairs the new stored cell with the response. -/
def update_config (admin_token : String) (x_admin_token : String)
    (body : RuntimeConfig) (_store : Option RuntimeConfig) :
    Except HTTPError (Option RuntimeConfig × RuntimeConfig) :=
  if x_admin_token ≠ admin_token then
    Except.error { status_code := 401, detail := "Invalid admin token" }
  else
    Except.ok (some body, body)

def c6Cfg : RuntimeConfig := { threshold := 0 }

/-- C6 (code bug): `POST /config` performs no threshold validation — a
config with `threshold = 0` passes the admin-token check, is stored and
echoed with 200, and `evaluate` under that stored config always raises
`ZeroDivisionError` (modelled as `none`) in the confidence formula. -/
theorem update_config_accepts_zero_threshold :
    c6Cfg.threshold = 0 ∧
    update_config "admintok" "admintok" c6Cfg none = Except.ok (some c6Cfg, c6Cfg) ∧
    (∀ A : AggregationResult, evaluate A c6Cfg = none) := by
  refine ⟨rfl, by simp [update_config], fun A => ?_⟩
  simp [evaluate, c6Cfg]



/-! ## Webhook ingress (`app/routers/webhook.py`) as an action trace -/

/-- One awaited side-effect (or the final response) of the webhook
request path, in program order. -/
inductive WAction where
  | getRedis
  | fetchFallbackPrice (symbol : String)
  | dedupeCheck (event_id : String)
  | rateCheck (symbol : String)
  | loadConfig
  | rpushEvent (symbol : String)
  | ltrimEvents (symbol : String)
  | expireEvents (symbol : String)
  | aggregateEvaluate (symbol : String)
  | dispatchBackground (symbol : String)
  | marketFetch (symbol : String)
  | acquireAiLock (symbol : String)
  | aiExplain (symbol : String)
  | releaseAiLock (symbol : String)
  | storeLatest (symbol : String)
  | respond (status : String)
deriving DecidableEq, Repr

/-- Function `tv_webhook` from `app/routers/webhook.py`: the response status and
the ordered synchronous action trace of one request.  `dup` and
`rate_limited` are the store's answers to the dedupe and rate-limit
checks; `last_price` is the fallback price fetched when the payload has
no price. -/
def tv_webhook (secret_setting : String) (sha16 : String → String)
    (payload : WebhookPayload) (now : ℤ) (last_price : ℚ)
    (dup : Bool) (rate_limited : Bool) : String × List WAction :=
  if payload.secret ≠ secret_setting then
    ("invalid_secret", [.respond "invalid_secret"])
  else
    let fbActions : List WAction :=
      if payload.price = none then [.fetchFallbackPrice (normalize_symbol payload.symbol)] else []
    let fallback_price : ℚ := if payload.price = none then last_price else 0
    match normalize sha16 payload now fallback_price true with
    | .error _ =>
      ("normalize_error", .getRedis :: fbActions ++ [.respond "normalize_error"])
    | .ok event =>
      if dup then
        ("duplicate", .getRedis :: fbActions ++
          [.dedupeCheck event.event_id, .respond "duplicate"])
      else if rate_limited then
        ("rate_limited", .getRedis :: fbActions ++
          [.dedupeCheck event.event_id, .rateCheck event.symbol, .respond "rate_limited"])
      else
        ("accepted", .getRedis :: fbActions ++
          [.dedupeCheck event.event_id, .rateCheck event.symbol, .loadConfig,
           .rpushEvent event.symbol, .ltrimEvents event.symbol, .expireEvents event.symbol,
           .aggregateEvaluate event.symbol, .dispatchBackground event.symbol,
           .respond "accepted"])

/-- Function `_background_evaluation` from `app/routers/webhook.py`: the ordered
action trace of the fire-and-forget task; `lock_acquired` is the store's
answer to the AI-lock attempt. -/
def background_evaluation_trace (symbol : String) (lock_acquired : Bool) : List WAction :=
  [.getRedis, .marketFetch symbol, .acquireAiLock symbol] ++
    (if lock_acquired then [.aiExplain symbol, .releaseAiLock symbol] else []) ++
    [.storeLatest symbol]

def isStoreLatest : WAction → Bool
  | .storeLatest _ => true
  | _ => false

def c1Payload : WebhookPayload :=
  { secret := "sec", indicator := "BigBeluga", symbol := "ETHUSDT", tf := "15m",
    signal := "BUY", price := some (Sum.inl 100) }

/-- C1 as stated is false on the code: this request is accepted, yet the
synchronous request trace contains no `store_latest` at all — in
particular none before the background dispatch or the response; the only
publication happens inside the background task, after the market fetch
and the AI attempt. -/
theorem webhook_fast_publication_counterexample :
    (tv_webhook "sec" c8sha c1Payload 1000 0 false false).1 = "accepted" ∧
    ((tv_webhook "sec" c8sha c1Payload 1000 0 false false).2.filter isStoreLatest) = [] ∧
    ((tv_webhook "sec" c8sha c1Payload 1000 0 false false).2.getLast?) =
      some (.respond "accepted") ∧
    (background_evaluation_trace "ETHUSDT" true).getLast? = some (.storeLatest "ETHUSDT") :=
  ⟨rfl, rfl, rfl, rfl⟩



/-- C1 (amended): for every webhook request that ends in the `accepted`
outcome, the synchronous request path performs no `store_latest` write at
all; it dispatches the background task and then responds (the dispatch is
the second-to-last action, the response the last).  The fast-layer
publication happens only inside the background task, whose last action —
after the market fetch and the AI single-flight attempt — is the
`store_latest` write for the event's symbol. -/
theorem webhook_publication_order (secret_setting : String) (sha16 : String → String)
    (payload : WebhookPayload) (now : ℤ) (lp : ℚ) (dup rl lock : Bool)
    (h : (tv_webhook secret_setting sha16 payload now lp dup rl).1 = "accepted") :
    (tv_webhook secret_setting sha16 payload now lp dup rl).2.filter isStoreLatest = [] ∧
    (tv_webhook secret_setting sha16 payload now lp dup rl).2.getLast? =
      some (.respond "accepted") ∧
    (tv_webhook secret_setting sha16 payload now lp dup rl).2.dropLast.getLast? =
      some (.dispatchBackground (normalize_symbol payload.symbol)) ∧
    (background_evaluation_trace (normalize_symbol payload.symbol) lock).getLast? =
      some (.storeLatest (normalize_symbol payload.symbol)) := by
  by_cases hsec : payload.secret ≠ secret_setting
  · simp only [tv_webhook, if_pos hsec] at h
    simp at h
  · cases heq : normalize sha16 payload now (if payload.price = none then lp else (0 : ℚ)) true with
    | error d =>
      simp only [tv_webhook, if_neg hsec, heq] at h
      simp at h
    | ok event =>
      cases dup with
      | true =>
        simp only [tv_webhook, if_neg hsec, heq] at h
        simp at h
      | false =>
        cases rl with
        | true =>
          simp only [tv_webhook, if_neg hsec, heq] at h
          simp at h
        | false =>
          have hsym := (normalize_ok_anatomy _ _ _ _ _ _ heq).2.2.2.2.1
          simp only [tv_webhook, if_neg hsec, heq]
          rw [hsym]
          by_cases hp : payload.price = none
          · simp only [if_pos hp]
            refine ⟨by simp [isStoreLatest], rfl, rfl, ?_⟩
            cases lock <;> rfl
          · simp only [if_neg hp]
            refine ⟨by simp [isStoreLatest], rfl, rfl, ?_⟩
            cases lock <;> rfl



theorem webhook_publication_order_witness :
    (tv_webhook "sec" c8sha c1Payload 1000 0 false false).1 = "accepted" ∧
    ((tv_webhook "sec" c8sha c1Payload 1000 0 false false).2.filter isStoreLatest = [] ∧
     (tv_webhook "sec" c8sha c1Payload 1000 0 false false).2.getLast? =
       some (.respond "accepted") ∧
     (tv_webhook "sec" c8sha c1Payload 1000 0 false false).2.dropLast.getLast? =
       some (.dispatchBackground (normalize_symbol c1Payload.symbol)) ∧
     (background_evaluation_trace (normalize_symbol c1Payload.symbol) true).getLast? =
       some (.storeLatest (normalize_symbol c1Payload.symbol))) :=
  ⟨rfl, webhook_publication_order "sec" c8sha c1Payload 1000 0 false false true rfl⟩

end BY
